import Mathlib

/-!
Shallow embedding of the Conductor Agent Coordination State Engine
(SQLiteStateStore) and proofs of the spec claims about it.

The store state is modelled at the level of the SQL rows: every table is a
list of rows, NULLable columns are Option fields, REAL money columns are
exact rationals, and ISO-8601 timestamps are natural numbers (milliseconds)
ordered the same way the lexicographic string comparison orders them.
Row ids produced by crypto.randomUUID in the source are taken as explicit
parameters of the operations, and the wall clock (new Date()) is an explicit
now parameter.
-/

namespace Conductor

/-- Task status, the union type of the source (types.ts). -/
inductive TaskStatus where
  | pending
  | claimed
  | in_progress
  | completed
  | failed
  | blocked
deriving DecidableEq

/-- Task priority, the union type of the source (types.ts). -/
inductive TaskPriority where
  | critical
  | high
  | medium
  | low
deriving DecidableEq

/-- A row of the tasks table. -/
structure TaskRow where
  id : String
  projectId : String
  title : String
  description : Option String
  status : TaskStatus
  priority : TaskPriority
  assignedTo : Option String
  claimedAt : Option Nat
  startedAt : Option Nat
  completedAt : Option Nat
  dependencies : List String
  blockedBy : Option (List String)
  estimatedTokens : Option Nat
  actualTokens : Option Nat
  files : List String
  tags : List String
  metadata : String
  createdAt : Nat
deriving DecidableEq

/-- A row of the file_locks table; acquireLock always writes expires_at. -/
structure LockRow where
  filePath : String
  projectId : String
  agentId : String
  lockedAt : Nat
  expiresAt : Nat
deriving DecidableEq

/-- A row of the projects table (the columns the claims are about). -/
structure ProjectRow where
  id : String
  organizationId : String
  name : String
  slug : String
  rootPath : Option String
  gitRemote : Option String
  gitBranch : String
  conflictStrategy : String
  settings : String
  isActive : Bool
  budgetTotal : Option ℚ
  budgetSpent : ℚ
  budgetAlertThreshold : ℚ
  createdAt : Nat
  updatedAt : Nat
deriving DecidableEq

/-- A row of the cost_events table. -/
structure CostRow where
  id : String
  organizationId : String
  projectId : String
  agentId : String
  model : String
  taskId : Option String
  tokensInput : Nat
  tokensOutput : Nat
  cost : ℚ
  createdAt : Nat
deriving DecidableEq

/-- Access request status, from the data model. -/
inductive RequestStatus where
  | pending
  | approved
  | denied
  | expired
deriving DecidableEq

/-- A row of the access_requests table. -/
structure AccessRequestRow where
  id : String
  projectId : String
  agentId : String
  agentName : String
  agentType : String
  capabilities : List String
  requestedRole : Option String
  status : RequestStatus
  requestedAt : Nat
  reviewedAt : Option Nat
  reviewedBy : Option String
  expiresAt : Option Nat
  denialReason : Option String
deriving DecidableEq

/-- The whole store: one list of rows per table, plus the currentProjectId
pointer held by the SQLiteStateStore object. -/
structure StoreState where
  projects : List ProjectRow
  tasks : List TaskRow
  fileLocks : List LockRow
  costEvents : List CostRow
  accessRequests : List AccessRequestRow
  currentProjectId : Option String
deriving DecidableEq

/-- A store as produced by the constructor: empty tables. -/
def emptyStore : StoreState :=
  { projects := [], tasks := [], fileLocks := [], costEvents := [],
    accessRequests := [], currentProjectId := none }

/-! ## Project methods -/

/-- The budget part of the createProject input. -/
structure BudgetInput where
  total : ℚ
  spent : ℚ
  alertThreshold : ℚ
deriving DecidableEq

/-- Input of createProject (Omit of Project). The JS truthiness coercions of
the source (x or null, x or default) are written out on the numeric fields. -/
structure ProjectInput where
  organizationId : String
  name : String
  slug : String
  rootPath : Option String
  gitRemote : Option String
  gitBranch : Option String
  conflictStrategy : Option String
  settings : Option String
  isActive : Option Bool
  budget : Option BudgetInput
deriving DecidableEq

/-- createProject: INSERT INTO projects with the defaults of the source;
budget_total stores project.budget?.total or null (so a zero total is stored
as NULL), budget_spent stores project.budget?.spent or 0, the alert
threshold defaults to 80.  Also sets currentProjectId. -/
def createProject (s : StoreState) (input : ProjectInput) (id : String)
    (now : Nat) : ProjectRow × StoreState :=
  let row : ProjectRow :=
    { id := id
      organizationId := input.organizationId
      name := input.name
      slug := input.slug
      rootPath := input.rootPath
      gitRemote := input.gitRemote
      gitBranch := input.gitBranch.getD "main"
      conflictStrategy := input.conflictStrategy.getD "lock"
      settings := input.settings.getD "{}"
      isActive := input.isActive ≠ some false
      budgetTotal :=
        match input.budget with
        | some b => if b.total = 0 then none else some b.total
        | none => none
      budgetSpent :=
        match input.budget with
        | some b => b.spent
        | none => 0
      budgetAlertThreshold :=
        match input.budget with
        | some b => if b.alertThreshold = 0 then 80 else b.alertThreshold
        | none => 80
      createdAt := now
      updatedAt := now }
  (row, { s with projects := s.projects ++ [row], currentProjectId := some id })

/-- The Budget object of the Project view returned by getProject. -/
structure Budget where
  total : ℚ
  spent : ℚ
  currency : String
  alertThreshold : ℚ
deriving DecidableEq

/-- The Project view returned by getProject. -/
structure Project where
  id : String
  organizationId : String
  name : String
  slug : String
  rootPath : Option String
  gitRemote : Option String
  gitBranch : String
  conflictStrategy : String
  settings : String
  isActive : Bool
  budget : Option Budget
  createdAt : Nat
  updatedAt : Nat
deriving DecidableEq

/-- Row-to-Project conversion of getProject: the budget object is produced
only when budget_total is truthy, so a NULL or zero budget_total yields
budget = undefined. -/
def rowToProject (r : ProjectRow) : Project :=
  { id := r.id
    organizationId := r.organizationId
    name := r.name
    slug := r.slug
    rootPath := r.rootPath
    gitRemote := r.gitRemote
    gitBranch := r.gitBranch
    conflictStrategy := r.conflictStrategy
    settings := r.settings
    isActive := r.isActive
    budget :=
      match r.budgetTotal with
      | some t =>
          if t = 0 then none
          else some { total := t, spent := r.budgetSpent, currency := "USD",
                      alertThreshold := r.budgetAlertThreshold }
      | none => none
    createdAt := r.createdAt
    updatedAt := r.updatedAt }

/-- getProject: SELECT * FROM projects WHERE id = ?. -/
def getProject (s : StoreState) (projectId : String) : Option Project :=
  (s.projects.find? (fun p => decide (p.id = projectId))).map rowToProject

/-- setCurrentProject. -/
def setCurrentProject (s : StoreState) (projectId : String) : StoreState :=
  { s with currentProjectId := some projectId }

/-! ## Task methods -/

/-- Input of createTask (Omit of Task). -/
structure TaskInput where
  title : String
  description : Option String
  status : Option TaskStatus
  priority : Option TaskPriority
  assignedTo : Option String
  dependencies : Option (List String)
  files : Option (List String)
  tags : Option (List String)
  metadata : Option String
  estimatedTokens : Option Nat
deriving DecidableEq

/-- createTask: INSERT INTO tasks with defaults status pending and priority
medium; estimated_tokens stores task.estimatedTokens or null (zero becomes
NULL by JS truthiness); the remaining columns default to NULL.  The source
returns getTask(id), which under the ids-are-fresh UUID assumption is the
inserted row. -/
def createTask (s : StoreState) (projectId : String) (input : TaskInput)
    (id : String) (now : Nat) : TaskRow × StoreState :=
  let row : TaskRow :=
    { id := id
      projectId := projectId
      title := input.title
      description := input.description
      status := input.status.getD TaskStatus.pending
      priority := input.priority.getD TaskPriority.medium
      assignedTo := input.assignedTo
      claimedAt := none
      startedAt := none
      completedAt := none
      dependencies := input.dependencies.getD []
      blockedBy := none
      estimatedTokens :=
        match input.estimatedTokens with
        | some n => if n = 0 then none else some n
        | none => none
      actualTokens := none
      files := input.files.getD []
      tags := input.tags.getD []
      metadata := input.metadata.getD "{}"
      createdAt := now }
  (row, { s with tasks := s.tasks ++ [row] })

/-- getTask: SELECT * FROM tasks WHERE id = ?. -/
def getTask (s : StoreState) (taskId : String) : Option TaskRow :=
  s.tasks.find? (fun t => decide (t.id = taskId))

/-- The Partial-of-Task argument of updateTask: a present field is updated,
an absent one is left alone. -/
structure TaskUpdates where
  status : Option TaskStatus
  priority : Option TaskPriority
  assignedTo : Option String
  actualTokens : Option Nat
  metadata : Option String
  blockedBy : Option (List String)
deriving DecidableEq

/-- The empty update. -/
def noTaskUpdates : TaskUpdates :=
  { status := none, priority := none, assignedTo := none,
    actualTokens := none, metadata := none, blockedBy := none }

/-- The status SET clauses of updateTask applied to a row: a status update
also stamps started_at when the new status is in_progress and the current
row had no started_at yet, and stamps completed_at when the new status is
completed or failed.  currentStartedAt is the started_at of the row read
before the UPDATE. -/
def applyStatusUpdate (ust : Option TaskStatus) (now : Nat)
    (currentStartedAt : Option Nat) (t : TaskRow) : TaskRow :=
  match ust with
  | none => t
  | some st =>
      let a := { t with status := st }
      let b :=
        if st = TaskStatus.in_progress ∧ currentStartedAt = none then
          { a with startedAt := some now }
        else a
      if st = TaskStatus.completed ∨ st = TaskStatus.failed then
        { b with completedAt := some now }
      else b

/-- The remaining SET clauses of updateTask: priority, assigned_to,
actual_tokens, metadata and blocked_by, each applied only when present. -/
def applyFieldUpdates (u : TaskUpdates) (t1 : TaskRow) : TaskRow :=
  let t2 := match u.priority with
    | none => t1
    | some p => { t1 with priority := p }
  let t3 := match u.assignedTo with
    | none => t2
    | some a => { t2 with assignedTo := some a }
  let t4 := match u.actualTokens with
    | none => t3
    | some n => { t3 with actualTokens := some n }
  let t5 := match u.metadata with
    | none => t4
    | some m => { t4 with metadata := m }
  match u.blockedBy with
  | none => t5
  | some b => { t5 with blockedBy := some b }

/-- All SET clauses of updateTask: the single UPDATE statement the source
assembles from the present fields of the Partial argument. -/
def applyTaskUpdates (u : TaskUpdates) (now : Nat)
    (currentStartedAt : Option Nat) (t : TaskRow) : TaskRow :=
  applyFieldUpdates u (applyStatusUpdate u.status now currentStartedAt t)

/-- updateTask: reads the current row (throwing Task not found when absent),
runs the conditional UPDATE, and returns getTask(taskId). -/
def updateTask (s : StoreState) (taskId : String) (u : TaskUpdates)
    (now : Nat) : Except String (TaskRow × StoreState) :=
  match s.tasks.find? (fun t => decide (t.id = taskId)) with
  | none => Except.error ("Task not found: " ++ taskId)
  | some current =>
      let s2 : StoreState :=
        { s with tasks := s.tasks.map (fun t =>
            if t.id = taskId then applyTaskUpdates u now current.startedAt t
            else t) }
      match s2.tasks.find? (fun t => decide (t.id = taskId)) with
      | none => Except.error ("Task not found: " ++ taskId)
      | some t => Except.ok (t, s2)

/-- The WHERE predicate of the conditional UPDATE of claimTask:
id = ? AND (assigned_to IS NULL OR assigned_to = ?) AND status = pending. -/
def claimMatches (taskId agentId : String) (t : TaskRow) : Prop :=
  t.id = taskId ∧ (t.assignedTo = none ∨ t.assignedTo = some agentId) ∧
    t.status = TaskStatus.pending

instance (taskId agentId : String) (t : TaskRow) :
    Decidable (claimMatches taskId agentId t) := by
  unfold claimMatches; infer_instance

/-- The SET clauses of the conditional UPDATE of claimTask applied to a
matched row: assigned_to = agentId, claimed_at = now, status = claimed. -/
def claimedRow (agentId : String) (now : Nat) (t : TaskRow) : TaskRow :=
  { t with assignedTo := some agentId, claimedAt := some now,
           status := TaskStatus.claimed }

/-- claimTask: a single conditional UPDATE setting assigned_to, claimed_at
and status = claimed on every row matched by claimMatches; returns
changes > 0. -/
def claimTask (s : StoreState) (taskId agentId : String) (now : Nat) :
    Bool × StoreState :=
  let changes := s.tasks.countP (fun t => decide (claimMatches taskId agentId t))
  let tasks2 := s.tasks.map (fun t =>
    if claimMatches taskId agentId t then claimedRow agentId now t else t)
  (decide (0 < changes), { s with tasks := tasks2 })

/-- The ORDER BY rank of listTasks:
CASE priority WHEN critical 1 WHEN high 2 WHEN medium 3 ELSE 4. -/
def priorityRank : TaskPriority → Nat
  | TaskPriority.critical => 1
  | TaskPriority.high => 2
  | TaskPriority.medium => 3
  | TaskPriority.low => 4

/-- The ordering of listTasks rows: by priority rank, then created_at. -/
def taskOrder (a b : TaskRow) : Prop :=
  priorityRank a.priority < priorityRank b.priority ∨
    (priorityRank a.priority = priorityRank b.priority ∧
      a.createdAt ≤ b.createdAt)

instance : DecidableRel taskOrder := fun a b => by
  unfold taskOrder; infer_instance

instance : IsTotal TaskRow taskOrder := by
  constructor
  intro a b
  unfold taskOrder
  rcases Nat.lt_trichotomy (priorityRank a.priority) (priorityRank b.priority)
    with h | h | h
  · exact Or.inl (Or.inl h)
  · rcases Nat.le_total a.createdAt b.createdAt with h2 | h2
    · exact Or.inl (Or.inr ⟨h, h2⟩)
    · exact Or.inr (Or.inr ⟨h.symm, h2⟩)
  · exact Or.inr (Or.inl h)

instance : IsTrans TaskRow taskOrder := by
  constructor
  intro a b c hab hbc
  unfold taskOrder at *
  rcases hab with h1 | ⟨e1, l1⟩
  · rcases hbc with h2 | ⟨e2, _⟩
    · exact Or.inl (h1.trans h2)
    · exact Or.inl (e2 ▸ h1)
  · rcases hbc with h2 | ⟨e2, l2⟩
    · exact Or.inl (e1 ▸ h2)
    · exact Or.inr ⟨e1.trans e2, l1.trans l2⟩

/-- The optional filters of listTasks; a scalar status or priority filter of
the source is normalised into a one-element list, JS truthiness makes an
empty-string assignedTo filter inert. -/
structure TaskFilters where
  status : Option (List TaskStatus)
  priority : Option (List TaskPriority)
  assignedTo : Option String
deriving DecidableEq

/-- No filters. -/
def noTaskFilters : TaskFilters :=
  { status := none, priority := none, assignedTo := none }

/-- The WHERE clause of listTasks. -/
def matchesTaskFilters (projectId : String) (f : TaskFilters)
    (t : TaskRow) : Bool :=
  decide (t.projectId = projectId) &&
  (match f.status with
   | none => true
   | some l => decide (t.status ∈ l)) &&
  (match f.priority with
   | none => true
   | some l => decide (t.priority ∈ l)) &&
  (match f.assignedTo with
   | none => true
   | some a => if a = "" then true else decide (t.assignedTo = some a))

/-- listTasks: the filtered rows of the project ordered by priority rank and
then created_at. -/
def listTasks (s : StoreState) (projectId : String) (f : TaskFilters) :
    List TaskRow :=
  List.insertionSort taskOrder (s.tasks.filter (matchesTaskFilters projectId f))

/-! ## Lock methods -/

/-- The ttlSeconds default parameter of acquireLock in the source. -/
def defaultTtlSeconds : Nat := 300

/-- The lazy sweep of the lock methods:
DELETE FROM file_locks WHERE project_id = ? AND expires_at < now. -/
def purgeExpiredLocks (locks : List LockRow) (projectId : String)
    (now : Nat) : List LockRow :=
  locks.filter (fun l => !decide (l.projectId = projectId ∧ l.expiresAt < now))

/-- acquireLock: purge the expired locks of the project, then INSERT a row
keyed (file_path, project_id) expiring ttlSeconds later; a primary-key
conflict (a row with that key is still present) is caught and yields
false. -/
def acquireLock (s : StoreState) (projectId filePath agentId : String)
    (ttlSeconds : Nat) (now : Nat) : Bool × StoreState :=
  let expiresAt := now + ttlSeconds * 1000
  let locks := purgeExpiredLocks s.fileLocks projectId now
  if locks.any (fun l => decide (l.filePath = filePath ∧ l.projectId = projectId)) then
    (false, { s with fileLocks := locks })
  else
    (true, { s with fileLocks := locks ++
      [{ filePath := filePath, projectId := projectId, agentId := agentId,
         lockedAt := now, expiresAt := expiresAt }] })

/-- releaseLock:
DELETE FROM file_locks WHERE project_id AND file_path AND agent_id match. -/
def releaseLock (s : StoreState) (projectId filePath agentId : String) :
    StoreState :=
  { s with fileLocks := s.fileLocks.filter (fun l =>
      !decide (l.projectId = projectId ∧ l.filePath = filePath ∧
        l.agentId = agentId)) }

/-- The record returned by checkLock. -/
structure LockStatus where
  locked : Bool
  holder : Option String
  expiresAt : Option Nat
deriving DecidableEq

/-- checkLock: purge the expired locks of the project, then report the row
at (project_id, file_path) when one remains. -/
def checkLock (s : StoreState) (projectId filePath : String) (now : Nat) :
    LockStatus × StoreState :=
  let locks := purgeExpiredLocks s.fileLocks projectId now
  let s2 := { s with fileLocks := locks }
  match locks.find? (fun l => decide (l.projectId = projectId ∧ l.filePath = filePath)) with
  | none => ({ locked := false, holder := none, expiresAt := none }, s2)
  | some l =>
      ({ locked := true, holder := some l.agentId,
         expiresAt := some l.expiresAt }, s2)

/-! ## Cost methods -/

/-- Input of recordCost (Omit of CostEvent). -/
structure CostInput where
  organizationId : String
  projectId : String
  agentId : String
  model : String
  taskId : Option String
  tokensInput : Nat
  tokensOutput : Nat
  cost : ℚ
deriving DecidableEq

/-- recordCost: INSERT the ledger row and, in the same transaction,
UPDATE projects SET budget_spent = budget_spent + cost WHERE id matches. -/
def recordCost (s : StoreState) (event : CostInput) (id : String)
    (now : Nat) : StoreState :=
  let row : CostRow :=
    { id := id
      organizationId := event.organizationId
      projectId := event.projectId
      agentId := event.agentId
      model := event.model
      taskId := event.taskId
      tokensInput := event.tokensInput
      tokensOutput := event.tokensOutput
      cost := event.cost
      createdAt := now }
  { s with
      costEvents := s.costEvents ++ [row]
      projects := s.projects.map (fun p =>
        if p.id = event.projectId then
          { p with budgetSpent := p.budgetSpent + event.cost }
        else p) }

/-- getProjectSpend: SELECT COALESCE(SUM(cost), 0) FROM cost_events WHERE
project_id = ?. -/
def getProjectSpend (s : StoreState) (projectId : String) : ℚ :=
  ((s.costEvents.filter (fun e => decide (e.projectId = projectId))).map
    (fun e => e.cost)).sum

/-- getAgentSpend: the same aggregate keyed by agent_id. -/
def getAgentSpend (s : StoreState) (agentId : String) : ℚ :=
  ((s.costEvents.filter (fun e => decide (e.agentId = agentId))).map
    (fun e => e.cost)).sum

/-! ## Access request methods -/

/-- A pending access request of (projectId, agentId). -/
def pendingFor (projectId agentId : String) (r : AccessRequestRow) : Prop :=
  r.projectId = projectId ∧ r.agentId = agentId ∧
    r.status = RequestStatus.pending

instance (projectId agentId : String) (r : AccessRequestRow) :
    Decidable (pendingFor projectId agentId r) := by
  unfold pendingFor; infer_instance

/-- The fields argument of createAccessRequest. -/
structure AccessRequestInput where
  agentId : String
  agentName : String
  agentType : String
  capabilities : Option (List String)
  requestedRole : Option String
deriving DecidableEq

/-- The fresh pending row inserted by createAccessRequest. -/
def newRequestRow (projectId : String) (input : AccessRequestInput)
    (id : String) (now : Nat) : AccessRequestRow :=
  { id := id
    projectId := projectId
    agentId := input.agentId
    agentName := input.agentName
    agentType := input.agentType
    capabilities := input.capabilities.getD []
    requestedRole := input.requestedRole
    status := RequestStatus.pending
    requestedAt := now
    reviewedAt := none
    reviewedBy := none
    expiresAt := none
    denialReason := none }

/-- Modelled from the spec: the implementation of createAccessRequest is not
among the sources (only its tests and callers are).  Spec section 4.4:
idempotent while pending - if a pending request already exists for
(projectId, agentId) it is returned unchanged instead of creating a
duplicate; otherwise a new request is inserted with status pending. -/
def createAccessRequest (s : StoreState) (projectId : String)
    (input : AccessRequestInput) (id : String) (now : Nat) :
    AccessRequestRow × StoreState :=
  match s.accessRequests.find? (fun r => decide (pendingFor projectId input.agentId r)) with
  | some r => (r, s)
  | none =>
      let row := newRequestRow projectId input id now
      (row, { s with accessRequests := s.accessRequests ++ [row] })

/-! ## Reachable states

A store state is reachable when it is produced from a fresh store by the
mutating operations of the engine. -/

inductive Reach : StoreState → Prop where
  | empty : Reach emptyStore
  | stepCreateProject (s : StoreState) (input : ProjectInput) (id : String)
      (now : Nat) : Reach s → Reach (createProject s input id now).2
  | stepSetCurrentProject (s : StoreState) (projectId : String) :
      Reach s → Reach (setCurrentProject s projectId)
  | stepCreateTask (s : StoreState) (projectId : String) (input : TaskInput)
      (id : String) (now : Nat) :
      Reach s → Reach (createTask s projectId input id now).2
  | stepUpdateTask (s : StoreState) (taskId : String) (u : TaskUpdates)
      (now : Nat) (t : TaskRow) (s2 : StoreState) :
      Reach s → updateTask s taskId u now = Except.ok (t, s2) → Reach s2
  | stepClaimTask (s : StoreState) (taskId agentId : String) (now : Nat) :
      Reach s → Reach (claimTask s taskId agentId now).2
  | stepAcquireLock (s : StoreState) (projectId filePath agentId : String)
      (ttlSeconds now : Nat) :
      Reach s → Reach (acquireLock s projectId filePath agentId ttlSeconds now).2
  | stepReleaseLock (s : StoreState) (projectId filePath agentId : String) :
      Reach s → Reach (releaseLock s projectId filePath agentId)
  | stepCheckLock (s : StoreState) (projectId filePath : String) (now : Nat) :
      Reach s → Reach (checkLock s projectId filePath now).2
  | stepRecordCost (s : StoreState) (event : CostInput) (id : String)
      (now : Nat) : Reach s → Reach (recordCost s event id now)
  | stepCreateAccessRequest (s : StoreState) (projectId : String)
      (input : AccessRequestInput) (id : String) (now : Nat) :
      Reach s → Reach (createAccessRequest s projectId input id now).2

/-! ## Helper lemmas -/

/-- A row update that fixes the rows failing a predicate and keeps the
predicate on the rows satisfying it commutes with find? on that
predicate. -/
theorem find?_map_comm {α : Type} (l : List α) (p : α → Bool) (F : α → α)
    (h1 : ∀ a, p a = false → F a = a) (h2 : ∀ a, p a = true → p (F a) = true) :
    (l.map F).find? p = (l.find? p).map F := by
  induction l with
  | nil => rfl
  | cons a t ih =>
      rcases hp : p a with _ | _
      · rw [List.map_cons,
          List.find?_cons_of_neg _ (by simp [h1 a hp, hp]),
          List.find?_cons_of_neg _ (by simp [hp]), ih]
      · rw [List.map_cons,
          List.find?_cons_of_pos _ (h2 a hp),
          List.find?_cons_of_pos _ hp, Option.map_some']

/-- The field SET clauses never change the id column. -/
theorem applyFieldUpdates_id (u : TaskUpdates) (t : TaskRow) :
    (applyFieldUpdates u t).id = t.id := by
  unfold applyFieldUpdates
  repeat' split
  all_goals rfl

/-- The field SET clauses never change the started_at column. -/
theorem applyFieldUpdates_startedAt (u : TaskUpdates) (t : TaskRow) :
    (applyFieldUpdates u t).startedAt = t.startedAt := by
  unfold applyFieldUpdates
  repeat' split
  all_goals rfl

/-- The field SET clauses never change the completed_at column. -/
theorem applyFieldUpdates_completedAt (u : TaskUpdates) (t : TaskRow) :
    (applyFieldUpdates u t).completedAt = t.completedAt := by
  unfold applyFieldUpdates
  repeat' split
  all_goals rfl

/-- The status SET clauses never change the id column. -/
theorem applyStatusUpdate_id (ust : Option TaskStatus) (now : Nat)
    (cs : Option Nat) (t : TaskRow) :
    (applyStatusUpdate ust now cs t).id = t.id := by
  unfold applyStatusUpdate
  repeat' split
  all_goals rfl

/-- applyTaskUpdates never changes the id column. -/
theorem applyTaskUpdates_id (u : TaskUpdates) (now : Nat)
    (cs : Option Nat) (t : TaskRow) : (applyTaskUpdates u now cs t).id = t.id := by
  unfold applyTaskUpdates
  rw [applyFieldUpdates_id, applyStatusUpdate_id]

/-- started_at is stamped with now when the update sets status in_progress
and the previously read row had no started_at. -/
theorem applyTaskUpdates_startedAt_stamped (u : TaskUpdates) (now : Nat)
    (cs : Option Nat) (t : TaskRow)
    (h1 : u.status = some TaskStatus.in_progress) (h2 : cs = none) :
    (applyTaskUpdates u now cs t).startedAt = some now := by
  unfold applyTaskUpdates
  rw [applyFieldUpdates_startedAt, h1, h2]
  rfl

/-- started_at is left intact by every update that is not a first
transition into in_progress. -/
theorem applyTaskUpdates_startedAt_kept (u : TaskUpdates) (now : Nat)
    (cs : Option Nat) (t : TaskRow)
    (h : ¬(u.status = some TaskStatus.in_progress ∧ cs = none)) :
    (applyTaskUpdates u now cs t).startedAt = t.startedAt := by
  unfold applyTaskUpdates
  rw [applyFieldUpdates_startedAt]
  rcases hst : u.status with _ | st
  · rfl
  · simp only [applyStatusUpdate]
    have hneg : ¬(st = TaskStatus.in_progress ∧ cs = none) :=
      fun hc => h ⟨by rw [hst, hc.1], hc.2⟩
    rw [if_neg hneg]
    split
    all_goals rfl

/-- completed_at is stamped with now when the update sets status completed
or failed. -/
theorem applyTaskUpdates_completedAt_stamped (u : TaskUpdates) (now : Nat)
    (cs : Option Nat) (t : TaskRow)
    (h : u.status = some TaskStatus.completed ∨ u.status = some TaskStatus.failed) :
    (applyTaskUpdates u now cs t).completedAt = some now := by
  unfold applyTaskUpdates
  rw [applyFieldUpdates_completedAt]
  rcases h with h | h
  · rw [h]
    simp only [applyStatusUpdate]
    have hneg : ¬(TaskStatus.completed = TaskStatus.in_progress ∧ cs = none) :=
      fun hc => TaskStatus.noConfusion hc.1
    rw [if_neg hneg]
    simp
  · rw [h]
    simp only [applyStatusUpdate]
    have hneg : ¬(TaskStatus.failed = TaskStatus.in_progress ∧ cs = none) :=
      fun hc => TaskStatus.noConfusion hc.1
    rw [if_neg hneg]
    simp

/-- The primary key of the file_locks table. -/
def lockKey (l : LockRow) : String × String := (l.filePath, l.projectId)

/-- The PRIMARY KEY (file_path, project_id) constraint of file_locks. -/
def locksWF (s : StoreState) : Prop := (s.fileLocks.map lockKey).Nodup

instance (s : StoreState) : Decidable (locksWF s) := by
  unfold locksWF; infer_instance

/-- The lazy sweep only deletes rows. -/
theorem purgeExpiredLocks_sublist (locks : List LockRow) (projectId : String)
    (now : Nat) : (purgeExpiredLocks locks projectId now).Sublist locks :=
  List.filter_sublist locks

/-- A sublist of a key-Nodup lock table is key-Nodup. -/
theorem nodup_lockKey_of_sublist {l1 l2 : List LockRow}
    (h : l1.Sublist l2) (h2 : (l2.map lockKey).Nodup) :
    (l1.map lockKey).Nodup :=
  (h.map lockKey).nodup h2

/-- updateTask only rewrites rows of the tasks table. -/
theorem updateTask_ok_fileLocks {s : StoreState} {taskId : String}
    {u : TaskUpdates} {now : Nat} {t : TaskRow} {s2 : StoreState}
    (h : updateTask s taskId u now = Except.ok (t, s2)) :
    s2.fileLocks = s.fileLocks := by
  unfold updateTask at h
  rcases h1 : s.tasks.find? (fun t => decide (t.id = taskId)) with _ | current
  · rw [h1] at h; exact absurd h (by simp)
  · rw [h1] at h
    rcases h2 : (s.tasks.map (fun t =>
        if t.id = taskId then applyTaskUpdates u now current.startedAt t
        else t)).find? (fun t => decide (t.id = taskId)) with _ | t2
    · simp only [h2] at h; exact absurd h (by simp)
    · simp only [h2] at h
      cases h
      rfl

/-- createAccessRequest leaves the file_locks table alone. -/
theorem createAccessRequest_fileLocks (s : StoreState) (projectId : String)
    (input : AccessRequestInput) (id : String) (now : Nat) :
    (createAccessRequest s projectId input id now).2.fileLocks = s.fileLocks := by
  unfold createAccessRequest
  rcases h : s.accessRequests.find? (fun r => decide (pendingFor projectId input.agentId r)) with _ | r
  · rfl
  · rfl

/-- Every reachable state satisfies the file_locks primary-key constraint:
no two rows share (file_path, project_id). -/
theorem reach_locksWF {s : StoreState} (h : Reach s) : locksWF s := by
  induction h with
  | empty => simp [locksWF, emptyStore]
  | stepCreateProject s input id now _ ih => exact ih
  | stepSetCurrentProject s projectId _ ih => exact ih
  | stepCreateTask s projectId input id now _ ih => exact ih
  | stepUpdateTask s taskId u now t s2 _ heq ih =>
      unfold locksWF
      rw [updateTask_ok_fileLocks heq]
      exact ih
  | stepClaimTask s taskId agentId now _ ih => exact ih
  | stepAcquireLock s projectId filePath agentId ttlSeconds now _ ih =>
      unfold locksWF at *
      unfold acquireLock
      rcases hany : (purgeExpiredLocks s.fileLocks projectId now).any
          (fun l => decide (l.filePath = filePath ∧ l.projectId = projectId)) with _ | _
      · simp only [hany, Bool.false_eq_true, if_false, List.map_append]
        rw [List.nodup_append]
        refine ⟨nodup_lockKey_of_sublist (purgeExpiredLocks_sublist _ _ _) ih,
          List.nodup_singleton _, ?_⟩
        intro k hk hk2
        simp only [List.map_cons, List.map_nil, List.mem_singleton] at hk2
        subst hk2
        rcases List.mem_map.mp hk with ⟨l, hl, hlk⟩
        have := List.any_eq_false.mp hany l hl
        simp only [decide_eq_true_eq] at this
        apply this
        unfold lockKey at hlk
        exact ⟨congrArg Prod.fst hlk, congrArg Prod.snd hlk⟩
      · simp only [hany, if_true]
        exact nodup_lockKey_of_sublist (purgeExpiredLocks_sublist _ _ _) ih
  | stepReleaseLock s projectId filePath agentId _ ih =>
      exact nodup_lockKey_of_sublist (List.filter_sublist _) ih
  | stepCheckLock s projectId filePath now _ ih =>
      unfold locksWF
      unfold checkLock
      rcases h : (purgeExpiredLocks s.fileLocks projectId now).find?
          (fun l => decide (l.projectId = projectId ∧ l.filePath = filePath)) with _ | l
      · simp only [h]
        exact nodup_lockKey_of_sublist (purgeExpiredLocks_sublist _ _ _) ih
      · simp only [h]
        exact nodup_lockKey_of_sublist (purgeExpiredLocks_sublist _ _ _) ih
  | stepRecordCost s event id now _ ih => exact ih
  | stepCreateAccessRequest s projectId input id now _ ih =>
      unfold locksWF
      rw [createAccessRequest_fileLocks]
      exact ih

/-- A conditional row update is the identity when no row satisfies the
predicate. -/
theorem map_ite_id {α : Type} (l : List α) (q : α → Prop) [DecidablePred q]
    (g : α → α) (h : ∀ a ∈ l, ¬ q a) :
    l.map (fun a => if q a then g a else a) = l := by
  induction l with
  | nil => rfl
  | cons a t ih =>
      rw [List.map_cons, if_neg (h a (List.mem_cons_self a t)),
        ih (fun b hb => h b (List.mem_cons_of_mem a hb))]

/-! ## Witness fixtures: a tiny concrete store -/

/-- A fresh pending unassigned task. -/
def wTask : TaskRow :=
  { id := "t1", projectId := "p1", title := "T", description := none,
    status := TaskStatus.pending, priority := TaskPriority.medium,
    assignedTo := none, claimedAt := none, startedAt := none,
    completedAt := none, dependencies := [], blockedBy := none,
    estimatedTokens := none, actualTokens := none, files := [], tags := [],
    metadata := "{}", createdAt := 0 }

/-- A store holding exactly that task. -/
def wStore : StoreState := { emptyStore with tasks := [wTask] }

/-- When no row of the store matches the WHERE clause, the conditional
UPDATE of claimTask affects zero rows and claimTask returns false. -/
theorem claimTask_fst_false (s : StoreState) (taskId agentId : String)
    (now : Nat) (h : ∀ r ∈ s.tasks, ¬ claimMatches taskId agentId r) :
    (claimTask s taskId agentId now).1 = false := by
  simp only [claimTask]
  rw [List.countP_eq_zero.mpr (by
    intro r hr
    simpa using h r hr)]
  rfl

/-- When some row of the store matches the WHERE clause, claimTask returns
true. -/
theorem claimTask_fst_true (s : StoreState) (taskId agentId : String)
    (now : Nat) (t : TaskRow) (ht : t ∈ s.tasks)
    (hm : claimMatches taskId agentId t) :
    (claimTask s taskId agentId now).1 = true := by
  simp only [claimTask]
  exact decide_eq_true (List.countP_pos_iff.mpr ⟨t, ht, by simpa using hm⟩)

/-- A matched row is rewritten by claimTask into its claimed form. -/
theorem claimTask_mem_claimed (s : StoreState) (taskId agentId : String)
    (now : Nat) (t : TaskRow) (ht : t ∈ s.tasks)
    (hm : claimMatches taskId agentId t) :
    claimedRow agentId now t ∈ (claimTask s taskId agentId now).2.tasks := by
  simp only [claimTask]
  refine List.mem_map.mpr ⟨t, ht, ?_⟩
  exact if_pos hm

/-- An unmatched row survives claimTask unchanged. -/
theorem claimTask_mem_kept (s : StoreState) (taskId agentId : String)
    (now : Nat) (t : TaskRow) (ht : t ∈ s.tasks)
    (hm : ¬ claimMatches taskId agentId t) :
    t ∈ (claimTask s taskId agentId now).2.tasks := by
  simp only [claimTask]
  refine List.mem_map.mpr ⟨t, ht, ?_⟩
  exact if_neg hm

/-- Every row of the store after claimTask is the image of a row of the
store before it: the claimed form of a matched row or an unmatched row
unchanged. -/
theorem claimTask_mem_inv (s : StoreState) (taskId agentId : String)
    (now : Nat) (r : TaskRow)
    (hr : r ∈ (claimTask s taskId agentId now).2.tasks) :
    ∃ r0 ∈ s.tasks,
      (if claimMatches taskId agentId r0 then claimedRow agentId now r0 else r0) = r := by
  simp only [claimTask] at hr
  exact List.mem_map.mp hr

/-! ## C9: claimTask on a missing task id -/

/-- C9: claimTask is total; when no task row has the given id it returns
false rather than raising NotFound, and the store is left unchanged. -/
theorem claimTask_missing_id_spec (s : StoreState) (taskId agentId : String)
    (now : Nat) (h : ∀ t ∈ s.tasks, t.id ≠ taskId) :
    claimTask s taskId agentId now = (false, s) := by
  simp only [claimTask]
  have h1 : ∀ t ∈ s.tasks, ¬ claimMatches taskId agentId t :=
    fun t ht hc => h t ht hc.1
  have hcount : s.tasks.countP (fun t => decide (claimMatches taskId agentId t)) = 0 :=
    List.countP_eq_zero.mpr (by
      intro t ht
      simpa using h1 t ht)
  rw [hcount, map_ite_id _ _ _ h1]
  rfl

/-- C9 witness: claiming a task id that is not in the store fails and
changes nothing. -/
theorem claimTask_missing_id_spec_witness :
    claimTask wStore "missing" "claude" 3 = (false, wStore) :=
  claimTask_missing_id_spec wStore "missing" "claude" 3 (by decide)

/-! ## C1: claimTask claiming semantics -/

/-- C1: a pending task that is unassigned (or already assigned to the
caller) is claimed: claimTask returns true and the row afterwards has
status claimed, assignedTo = agentId and claimedAt = now; a row whose
status is not pending is not touched, and when it is the row with the
requested id claimTask returns false; of two sequential claims of the same
pending task by distinct agents the first returns true, the second returns
false, and the task stays assigned to the first claimer. -/
theorem claimTask_spec (s : StoreState) (taskId agentId agentB : String)
    (now now2 : Nat) :
    (∀ t ∈ s.tasks, claimMatches taskId agentId t →
      (claimTask s taskId agentId now).1 = true ∧
      claimedRow agentId now t ∈ (claimTask s taskId agentId now).2.tasks)
    ∧ (∀ t ∈ s.tasks, ¬ claimMatches taskId agentId t →
        t ∈ (claimTask s taskId agentId now).2.tasks)
    ∧ ((s.tasks.map TaskRow.id).Nodup → ∀ t ∈ s.tasks, t.id = taskId →
        t.status ≠ TaskStatus.pending →
        (claimTask s taskId agentId now).1 = false ∧
        t ∈ (claimTask s taskId agentId now).2.tasks)
    ∧ ((s.tasks.map TaskRow.id).Nodup → agentB ≠ agentId →
        ∀ t ∈ s.tasks, t.id = taskId → t.status = TaskStatus.pending →
        t.assignedTo = none →
        (claimTask s taskId agentId now).1 = true ∧
        (claimTask (claimTask s taskId agentId now).2 taskId agentB now2).1 = false ∧
        claimedRow agentId now t ∈
          (claimTask (claimTask s taskId agentId now).2 taskId agentB now2).2.tasks) := by
  refine ⟨fun t ht hm => ⟨claimTask_fst_true s taskId agentId now t ht hm,
    claimTask_mem_claimed s taskId agentId now t ht hm⟩,
    fun t ht hm => claimTask_mem_kept s taskId agentId now t ht hm, ?_, ?_⟩
  · intro hnd t ht hid hnp
    have hnone : ∀ r ∈ s.tasks, ¬ claimMatches taskId agentId r := by
      intro r hr hm
      have : r = t := List.inj_on_of_nodup_map hnd hr ht (hm.1.trans hid.symm)
      exact hnp (this ▸ hm.2.2)
    exact ⟨claimTask_fst_false s taskId agentId now hnone,
      claimTask_mem_kept s taskId agentId now t ht (hnone t ht)⟩
  · intro hnd hBA t ht hid hpend hass
    have hm : claimMatches taskId agentId t := ⟨hid, Or.inl hass, hpend⟩
    refine ⟨claimTask_fst_true s taskId agentId now t ht hm, ?_, ?_⟩
    · apply claimTask_fst_false
      intro r hr hmB
      rcases claimTask_mem_inv s taskId agentId now r hr with ⟨r0, hr0, hr0e⟩
      by_cases hq : claimMatches taskId agentId r0
      · rw [if_pos hq] at hr0e
        have hcl : r.status = TaskStatus.claimed := by
          rw [← hr0e]
          rfl
        exact absurd (hmB.2.2.symm.trans hcl) (by decide)
      · rw [if_neg hq] at hr0e
        have : r0 = t := List.inj_on_of_nodup_map hnd hr0 ht
          ((congrArg TaskRow.id hr0e).trans (hmB.1.trans hid.symm) :
            TaskRow.id r0 = TaskRow.id t)
        exact hq (this ▸ hm)
    · have h1 : claimedRow agentId now t ∈ (claimTask s taskId agentId now).2.tasks :=
        claimTask_mem_claimed s taskId agentId now t ht hm
      have hnm : ¬ claimMatches taskId agentB (claimedRow agentId now t) := by
        intro hc
        exact TaskStatus.noConfusion hc.2.2
      exact claimTask_mem_kept _ taskId agentB now2 _ h1 hnm

/-- C1 witness: on a store with one pending unassigned task, the first
claim succeeds, the second claim by a different agent fails, and the task
stays claimed by the first agent. -/
theorem claimTask_spec_witness :
    (claimTask wStore "t1" "claude" 5).1 = true ∧
    (claimTask (claimTask wStore "t1" "claude" 5).2 "t1" "gemini" 6).1 = false ∧
    claimedRow "claude" 5 wTask ∈
      (claimTask (claimTask wStore "t1" "claude" 5).2 "t1" "gemini" 6).2.tasks := by
  have h := (claimTask_spec wStore "t1" "claude" "gemini" 5 6).2.2.2
  exact h (by decide) (by decide) wTask (by decide) rfl rfl rfl

/-! ## C5: updateTask -/

/-- C5: updateTask fails with NotFound exactly when no task with the id
exists; on an existing task it applies the SET clauses and returns the
updated row: a status update to in_progress stamps started_at only when the
row had none (an already present started_at is left intact), and a status
update to completed or failed stamps completed_at. -/
theorem updateTask_spec (s : StoreState) (taskId : String) (u : TaskUpdates)
    (now : Nat) :
    ((∀ t ∈ s.tasks, t.id ≠ taskId) →
      updateTask s taskId u now = Except.error ("Task not found: " ++ taskId))
    ∧ (∀ current, s.tasks.find? (fun t => decide (t.id = taskId)) = some current →
        (updateTask s taskId u now =
          Except.ok (applyTaskUpdates u now current.startedAt current,
            { s with tasks := s.tasks.map (fun t =>
                if t.id = taskId then applyTaskUpdates u now current.startedAt t
                else t) }))
        ∧ (u.status = some TaskStatus.in_progress → current.startedAt = none →
            (applyTaskUpdates u now current.startedAt current).startedAt = some now)
        ∧ (∀ x, current.startedAt = some x →
            (applyTaskUpdates u now current.startedAt current).startedAt = some x)
        ∧ (u.status = some TaskStatus.completed ∨ u.status = some TaskStatus.failed →
            (applyTaskUpdates u now current.startedAt current).completedAt = some now)) := by
  constructor
  · intro h
    have hnone : s.tasks.find? (fun t => decide (t.id = taskId)) = none :=
      List.find?_eq_none.mpr (by
        intro t ht
        simpa using h t ht)
    unfold updateTask
    rw [hnone]
  · intro current hcur
    have hcurId : current.id = taskId := by
      have := List.find?_some hcur
      simpa using this
    refine ⟨?_, ?_, ?_, ?_⟩
    · simp only [updateTask, hcur]
      have hfind2 := find?_map_comm s.tasks (fun t => decide (t.id = taskId))
        (fun t => if t.id = taskId then applyTaskUpdates u now current.startedAt t else t)
        (fun a ha => if_neg (by simpa using ha))
        (fun a ha => by
          have haq : a.id = taskId := by simpa using ha
          show decide ((if a.id = taskId then
            applyTaskUpdates u now current.startedAt a else a).id = taskId) = true
          rw [if_pos haq, applyTaskUpdates_id]
          simpa using haq)
      rw [hfind2, hcur, Option.map_some', if_pos hcurId]
    · intro h1 h2
      exact applyTaskUpdates_startedAt_stamped u now current.startedAt current h1 h2
    · intro x hx
      rw [applyTaskUpdates_startedAt_kept u now current.startedAt current
        (fun hc => by rw [hx] at hc; exact Option.noConfusion hc.2)]
      exact hx
    · intro h
      exact applyTaskUpdates_completedAt_stamped u now current.startedAt current h

/-- The status-only update to in_progress used by the C5 witness. -/
def wInProgress : TaskUpdates := { noTaskUpdates with status := some TaskStatus.in_progress }

/-- C5 witness: updating the stored pending task to in_progress succeeds
and stamps started_at with the update time. -/
theorem updateTask_spec_witness :
    (updateTask wStore "t1" wInProgress 7).toOption.map
      (fun p => (p.1.status, p.1.startedAt)) =
      some (TaskStatus.in_progress, some 7) := by
  have h := (updateTask_spec wStore "t1" wInProgress 7).2 wTask (by decide)
  rw [h.1]
  decide

/-! ## C4: the assignedTo/status invariant -/

/-- The statuses the spec couples to a set assignedTo. -/
def assignedStatuses : List TaskStatus :=
  [TaskStatus.claimed, TaskStatus.in_progress, TaskStatus.completed,
   TaskStatus.failed, TaskStatus.blocked]

/-- The spec invariant: assignedTo is set iff the status is one of claimed,
in_progress, completed, failed, blocked. -/
def taskInvariant (t : TaskRow) : Prop :=
  t.assignedTo ≠ none ↔ t.status ∈ assignedStatuses

instance (t : TaskRow) : Decidable (taskInvariant t) := by
  unfold taskInvariant; infer_instance

/-- The concrete project input of the counterexample run. -/
def cexProjectInput : ProjectInput :=
  { organizationId := "org", name := "P", slug := "p", rootPath := none,
    gitRemote := none, gitBranch := none, conflictStrategy := none,
    settings := none, isActive := none, budget := none }

/-- The concrete task input of the counterexample run: all defaults. -/
def cexTaskInput : TaskInput :=
  { title := "T", description := none, status := none, priority := none,
    assignedTo := none, dependencies := none, files := none, tags := none,
    metadata := none, estimatedTokens := none }

/-- The store after createProject and createTask with defaults. -/
def cexStore2 : StoreState :=
  (createTask (createProject emptyStore cexProjectInput "p1" 0).2 "p1"
    cexTaskInput "t1" 1).2

/-- The status-only update to completed used by the counterexample. -/
def cexCompletedUpdate : TaskUpdates :=
  { noTaskUpdates with status := some TaskStatus.completed }

/-- The task row returned by completing the unassigned pending task. -/
def cexRow : TaskRow :=
  ((updateTask cexStore2 "t1" cexCompletedUpdate 2).toOption.map Prod.fst).getD wTask

/-- The store after completing the unassigned pending task. -/
def cexStore3 : StoreState :=
  ((updateTask cexStore2 "t1" cexCompletedUpdate 2).toOption.map Prod.snd).getD cexStore2

/-- C4 counterexample: a reachable store (createProject, createTask with
defaults, updateTask to status completed) contains a task with status
completed and no assignedTo, so updateTask does not preserve the
invariant. -/
theorem taskInvariant_counterexample :
    Reach cexStore3 ∧
    cexStore3.tasks.all (fun t => decide (taskInvariant t)) = false ∧
    cexRow.status = TaskStatus.completed ∧ cexRow.assignedTo = none := by
  refine ⟨?_, by decide, by decide, by decide⟩
  have h2 : Reach cexStore2 :=
    Reach.stepCreateTask _ _ _ _ _
      (Reach.stepCreateProject _ _ _ _ Reach.empty)
  exact Reach.stepUpdateTask cexStore2 "t1" cexCompletedUpdate 2 cexRow cexStore3
    h2 rfl

/-- C4 amended: claimTask always preserves the invariant, and createTask
establishes it whenever the supplied fields themselves satisfy it (as the
defaults, status pending with no assignee, do) while keeping the other
rows; updateTask however does not preserve it, since a status update does
not set or clear assignedTo. -/
theorem taskInvariant_amended (s : StoreState) (taskId agentId : String)
    (now : Nat) (projectId : String) (input : TaskInput) (id : String) :
    ((∀ t ∈ s.tasks, taskInvariant t) →
      ∀ t ∈ (claimTask s taskId agentId now).2.tasks, taskInvariant t)
    ∧ ((input.assignedTo ≠ none ↔
          input.status.getD TaskStatus.pending ∈ assignedStatuses) →
        taskInvariant (createTask s projectId input id now).1
        ∧ ∀ t ∈ s.tasks, t ∈ (createTask s projectId input id now).2.tasks) := by
  constructor
  · intro h r hr
    rcases claimTask_mem_inv s taskId agentId now r hr with ⟨r0, hr0, hr0e⟩
    by_cases hq : claimMatches taskId agentId r0
    · rw [if_pos hq] at hr0e
      rw [← hr0e]
      constructor
      · intro _
        show TaskStatus.claimed ∈ assignedStatuses
        decide
      · intro _
        intro hc
        exact Option.noConfusion hc
    · rw [if_neg hq] at hr0e
      rw [← hr0e]
      exact h r0 hr0
  · intro h
    refine ⟨h, ?_⟩
    intro t ht
    simp only [createTask]
    exact List.mem_append_left _ ht

/-- C4 amended witness: claiming the pending task of the witness store
keeps every task satisfying the invariant, and createTask with default
fields creates an invariant-satisfying task. -/
theorem taskInvariant_amended_witness :
    (claimTask wStore "t1" "claude" 5).2.tasks.all
      (fun t => decide (taskInvariant t)) = true ∧
    decide (taskInvariant (createTask wStore "p1" cexTaskInput "t2" 6).1) = true := by
  have h := taskInvariant_amended wStore "t1" "claude" 5 "p1" cexTaskInput "t2"
  refine ⟨?_, ?_⟩
  · have h1 := h.1 (by decide)
    exact List.all_eq_true.mpr (fun t ht => decide_eq_true (h1 t ht))
  · exact decide_eq_true ((h.2 (by decide)).1)

/-! ## C2: acquireLock mutual exclusion -/

/-- C2: in every reachable state at most one lock row (so in particular at
most one non-expired one) exists per (projectId, filePath); while a
non-expired lock on (projectId, filePath) is present acquireLock returns
false for every caller, the holder included; when every lock row on that
key has expired, acquireLock returns true and installs a lock expiring
ttlSeconds after now, after first purging the expired locks of the
project. -/
theorem acquireLock_spec (s : StoreState) (projectId filePath agentId : String)
    (ttlSeconds now : Nat) :
    (Reach s → ∀ l1 ∈ s.fileLocks, ∀ l2 ∈ s.fileLocks,
      l1.filePath = l2.filePath → l1.projectId = l2.projectId → l1 = l2)
    ∧ (∀ l ∈ s.fileLocks, l.projectId = projectId → l.filePath = filePath →
        ¬ l.expiresAt < now →
        (acquireLock s projectId filePath agentId ttlSeconds now).1 = false)
    ∧ ((∀ l ∈ s.fileLocks, l.projectId = projectId → l.filePath = filePath →
          l.expiresAt < now) →
        (acquireLock s projectId filePath agentId ttlSeconds now).1 = true ∧
        (acquireLock s projectId filePath agentId ttlSeconds now).2.fileLocks =
          purgeExpiredLocks s.fileLocks projectId now ++
            [{ filePath := filePath, projectId := projectId, agentId := agentId,
               lockedAt := now, expiresAt := now + ttlSeconds * 1000 }]) := by
  refine ⟨?_, ?_, ?_⟩
  · intro hr l1 h1 l2 h2 hf hp
    refine List.inj_on_of_nodup_map (reach_locksWF hr) h1 h2 ?_
    unfold lockKey
    rw [hf, hp]
  · intro l hl hp hf hne
    have hmem : l ∈ purgeExpiredLocks s.fileLocks projectId now := by
      refine List.mem_filter.mpr ⟨hl, ?_⟩
      simp only [Bool.not_eq_eq_eq_not, Bool.not_true, decide_eq_false_iff_not]
      intro hc
      exact hne hc.2
    have hany : (purgeExpiredLocks s.fileLocks projectId now).any
        (fun l => decide (l.filePath = filePath ∧ l.projectId = projectId)) = true :=
      List.any_eq_true.mpr ⟨l, hmem, by simp [hf, hp]⟩
    simp only [acquireLock, hany]
    rfl
  · intro hall
    have hany : (purgeExpiredLocks s.fileLocks projectId now).any
        (fun l => decide (l.filePath = filePath ∧ l.projectId = projectId)) = false := by
      rw [List.any_eq_false]
      intro l hlm
      rcases List.mem_filter.mp hlm with ⟨hl, hkeep⟩
      simp only [decide_eq_true_eq]
      intro hc
      have hexp : l.expiresAt < now := hall l hl hc.2 hc.1
      simp only [Bool.not_eq_eq_eq_not, Bool.not_true, decide_eq_false_iff_not] at hkeep
      exact hkeep ⟨hc.2, hexp⟩
    constructor
    · simp only [acquireLock, hany]
      rfl
    · simp only [acquireLock, hany]
      rfl

/-- The store of the lock witnesses: one live lock on (p1, a.ts) held by
claude, installed at time 0 with the default 300 second ttl. -/
def wLockStore : StoreState :=
  (acquireLock emptyStore "p1" "a.ts" "claude" defaultTtlSeconds 0).2

/-- The single lock row of wLockStore. -/
def wLockRow : LockRow :=
  { filePath := "a.ts", projectId := "p1", agentId := "claude",
    lockedAt := 0, expiresAt := 300000 }

/-- C2 witness: while the claude lock is live a second acquireLock fails
for another agent and for the holder; on a different path it succeeds. -/
theorem acquireLock_spec_witness :
    (acquireLock wLockStore "p1" "a.ts" "gemini" 300 10).1 = false ∧
    (acquireLock wLockStore "p1" "a.ts" "claude" 300 10).1 = false ∧
    (acquireLock wLockStore "p1" "b.ts" "gemini" 300 10).1 = true := by
  have hlock : wLockRow ∈ wLockStore.fileLocks := by decide
  refine ⟨?_, ?_, ?_⟩
  · exact (acquireLock_spec wLockStore "p1" "a.ts" "gemini" 300 10).2.1
      wLockRow hlock rfl rfl (by decide)
  · exact (acquireLock_spec wLockStore "p1" "a.ts" "claude" 300 10).2.1
      wLockRow hlock rfl rfl (by decide)
  · exact ((acquireLock_spec wLockStore "p1" "b.ts" "gemini" 300 10).2.2
      (by decide)).1

/-! ## C6: releaseLock is holder-only -/

/-- C6: for a lock row held by holder on (projectId, filePath), releaseLock
by a different agent leaves the row in place - a checkLock while the lock
is unexpired still reports it locked by holder with the same expiresAt -
while releaseLock by the holder deletes it, after which checkLock reports
unlocked. -/
theorem releaseLock_spec (s : StoreState) (projectId filePath holder agent : String)
    (l : LockRow) (now : Nat) (hwf : locksWF s) (hl : l ∈ s.fileLocks)
    (hproj : l.projectId = projectId) (hfile : l.filePath = filePath)
    (hagent : l.agentId = holder) :
    (agent ≠ holder →
      l ∈ (releaseLock s projectId filePath agent).fileLocks ∧
      (¬ l.expiresAt < now →
        (checkLock (releaseLock s projectId filePath agent) projectId filePath now).1 =
          { locked := true, holder := some holder, expiresAt := some l.expiresAt }))
    ∧ (agent = holder →
        (checkLock (releaseLock s projectId filePath agent) projectId filePath now).1 =
          { locked := false, holder := none, expiresAt := none }) := by
  constructor
  · intro hne
    have hsurv : l ∈ (releaseLock s projectId filePath agent).fileLocks := by
      refine List.mem_filter.mpr ⟨hl, ?_⟩
      simp only [Bool.not_eq_eq_eq_not, Bool.not_true, decide_eq_false_iff_not]
      intro hc
      exact hne (hc.2.2.symm.trans hagent)
    refine ⟨hsurv, ?_⟩
    intro hlive
    have hpmem : l ∈ purgeExpiredLocks
        (releaseLock s projectId filePath agent).fileLocks projectId now := by
      refine List.mem_filter.mpr ⟨hsurv, ?_⟩
      simp only [Bool.not_eq_eq_eq_not, Bool.not_true, decide_eq_false_iff_not]
      intro hc
      exact hlive hc.2
    rcases hF : (purgeExpiredLocks
        (releaseLock s projectId filePath agent).fileLocks projectId now).find?
        (fun r => decide (r.projectId = projectId ∧ r.filePath = filePath)) with _ | r
    · exfalso
      exact absurd (by simp [hproj, hfile] :
          (fun r : LockRow => decide (r.projectId = projectId ∧ r.filePath = filePath)) l = true)
        (by simpa using List.find?_eq_none.mp hF l hpmem)
    · have hrP : r.projectId = projectId ∧ r.filePath = filePath := by
        simpa using List.find?_some hF
      have hrmem : r ∈ s.fileLocks := by
        have h1 := List.mem_of_find?_eq_some hF
        have h2 := (purgeExpiredLocks_sublist
          (releaseLock s projectId filePath agent).fileLocks projectId now).mem h1
        exact (List.filter_sublist s.fileLocks).mem h2
      have hrl : r = l := by
        refine List.inj_on_of_nodup_map hwf hrmem hl ?_
        unfold lockKey
        rw [hrP.1, hrP.2, hproj, hfile]
      simp only [checkLock, hF]
      rw [hrl, hagent]
  · intro heq
    have hF : (purgeExpiredLocks
        (releaseLock s projectId filePath agent).fileLocks projectId now).find?
        (fun r => decide (r.projectId = projectId ∧ r.filePath = filePath)) = none := by
      rw [List.find?_eq_none]
      intro r hrp
      rcases List.mem_filter.mp hrp with ⟨hrel, -⟩
      rcases List.mem_filter.mp hrel with ⟨hrs, hkeep⟩
      simp only [decide_eq_true_eq]
      intro hc
      have hrl : r = l := by
        refine List.inj_on_of_nodup_map hwf hrs hl ?_
        unfold lockKey
        rw [hc.1, hc.2, hproj, hfile]
      simp only [Bool.not_eq_eq_eq_not, Bool.not_true, decide_eq_false_iff_not] at hkeep
      exact hkeep ⟨hrl ▸ hproj, hrl ▸ hfile, hrl ▸ (hagent.trans heq.symm)⟩
    simp only [checkLock, hF]

/-- C6 witness: a release by gemini leaves the claude lock reported as
locked with the original expiry; a release by claude unlocks it. -/
theorem releaseLock_spec_witness :
    (checkLock (releaseLock wLockStore "p1" "a.ts" "gemini") "p1" "a.ts" 10).1 =
      { locked := true, holder := some "claude", expiresAt := some 300000 } ∧
    (checkLock (releaseLock wLockStore "p1" "a.ts" "claude") "p1" "a.ts" 10).1 =
      { locked := false, holder := none, expiresAt := none } := by
  have h1 := releaseLock_spec wLockStore "p1" "a.ts" "claude" "gemini"
    wLockRow 10 (by decide) (by decide) rfl rfl rfl
  have h2 := releaseLock_spec wLockStore "p1" "a.ts" "claude" "claude"
    wLockRow 10 (by decide) (by decide) rfl rfl rfl
  exact ⟨(h1.1 (by decide)).2 (by decide), h2.2 rfl⟩

/-! ## C3 and C10: the cost ledger -/

/-- A sequence of recordCost calls, each with its event, generated row id
and call time. -/
def recordCosts (s : StoreState) (events : List (CostInput × String × Nat)) :
    StoreState :=
  events.foldl (fun st e => recordCost st e.1 e.2.1 e.2.2) s

/-- The arithmetic sum of the costs of a sequence of recordCost calls. -/
def totalCost (events : List (CostInput × String × Nat)) : ℚ :=
  (events.map (fun e => e.1.cost)).sum

/-- The budget_spent increment of recordCost commutes with find? on the
projects table. -/
theorem recordCost_find?_project (s : StoreState) (ev : CostInput)
    (id : String) (now : Nat) :
    (recordCost s ev id now).projects.find? (fun p => decide (p.id = ev.projectId)) =
      (s.projects.find? (fun p => decide (p.id = ev.projectId))).map
        (fun p => if p.id = ev.projectId then
          { p with budgetSpent := p.budgetSpent + ev.cost } else p) := by
  simp only [recordCost]
  refine find?_map_comm _ _ _ (fun a ha => if_neg (by simpa using ha)) ?_
  intro a ha
  have haq : a.id = ev.projectId := by simpa using ha
  show decide ((if a.id = ev.projectId then
    { a with budgetSpent := a.budgetSpent + ev.cost } else a).id = ev.projectId) = true
  rw [if_pos haq]
  simpa using haq

/-- One recordCost call adds its cost to the aggregate spend of its own
project and leaves the aggregate of every other project alone. -/
theorem recordCost_spend (s : StoreState) (ev : CostInput) (id : String)
    (now : Nat) (projectId : String) :
    getProjectSpend (recordCost s ev id now) projectId =
      getProjectSpend s projectId +
        (if ev.projectId = projectId then ev.cost else 0) := by
  simp only [getProjectSpend, recordCost, List.filter_append, List.map_append,
    List.sum_append]
  by_cases h : ev.projectId = projectId
  · simp [h]
  · simp [h]

/-- Spend and stored budget after a sequence of recordCost calls for one
project: both grow by exactly the total cost of the sequence. -/
theorem recordCosts_spend_general (projectId : String) :
    ∀ (events : List (CostInput × String × Nat)) (s : StoreState) (p0 : ProjectRow),
    (∀ e ∈ events, e.1.projectId = projectId) →
    s.projects.find? (fun p => decide (p.id = projectId)) = some p0 →
    (recordCosts s events).projects.find? (fun p => decide (p.id = projectId)) =
      some { p0 with budgetSpent := p0.budgetSpent + totalCost events } ∧
    getProjectSpend (recordCosts s events) projectId =
      getProjectSpend s projectId + totalCost events := by
  intro events
  induction events with
  | nil =>
      intro s p0 _ hf
      constructor
      · rw [show recordCosts s [] = s from rfl, hf,
          show totalCost [] = 0 from rfl]
        simp
      · rw [show recordCosts s [] = s from rfl, show totalCost [] = 0 from rfl]
        simp
  | cons e es ih =>
      intro s p0 hall hf
      have hpe : e.1.projectId = projectId := hall e (List.mem_cons_self e es)
      have hstep : recordCosts s (e :: es) =
          recordCosts (recordCost s e.1 e.2.1 e.2.2) es := rfl
      have hfind1 : (recordCost s e.1 e.2.1 e.2.2).projects.find?
          (fun p => decide (p.id = projectId)) =
          some { p0 with budgetSpent := p0.budgetSpent + e.1.cost } := by
        have h := recordCost_find?_project s e.1 e.2.1 e.2.2
        rw [hpe] at h
        rw [h, hf, Option.map_some']
        have hp0 : p0.id = projectId := by
          simpa using List.find?_some hf
        rw [if_pos hp0]
      have ihs := ih (recordCost s e.1 e.2.1 e.2.2)
        { p0 with budgetSpent := p0.budgetSpent + e.1.cost }
        (fun x hx => hall x (List.mem_cons_of_mem e hx)) hfind1
      constructor
      · rw [hstep, ihs.1]
        have : totalCost (e :: es) = e.1.cost + totalCost es := by
          simp [totalCost]
        rw [this, add_assoc]
      · rw [hstep, ihs.2, recordCost_spend, hpe, if_pos rfl]
        have : totalCost (e :: es) = e.1.cost + totalCost es := by
          simp [totalCost]
        rw [this, add_assoc]

/-- C3: starting from a project whose stored budget_spent is 0 and which
has no ledger rows yet, any sequence of recordCost calls for that project
leaves getProjectSpend equal to the sum of the recorded costs, and equal to
the stored budget_spent of the project row. -/
theorem recordCost_additive_spec (s : StoreState) (projectId : String)
    (events : List (CostInput × String × Nat)) (p0 : ProjectRow)
    (hall : ∀ e ∈ events, e.1.projectId = projectId)
    (hf : s.projects.find? (fun p => decide (p.id = projectId)) = some p0)
    (hzero : p0.budgetSpent = 0)
    (hnoev : ∀ e ∈ s.costEvents, e.projectId ≠ projectId) :
    getProjectSpend (recordCosts s events) projectId = totalCost events ∧
    (recordCosts s events).projects.find? (fun p => decide (p.id = projectId)) =
      some { p0 with budgetSpent := totalCost events } := by
  have h := recordCosts_spend_general projectId events s p0 hall hf
  have hs0 : getProjectSpend s projectId = 0 := by
    simp only [getProjectSpend]
    rw [List.filter_eq_nil_iff.mpr (by
      intro e he
      simpa using hnoev e he)]
    rfl
  constructor
  · rw [h.2, hs0, zero_add]
  · rw [h.1, hzero, zero_add]

/-- The budgeted project input used by the C3 witness. -/
def wBudgetProjectInput : ProjectInput :=
  { cexProjectInput with
      budget := some { total := 100, spent := 0, alertThreshold := 80 } }

/-- The store of the C3 witness: one project with budget total 100 and
spent 0. -/
def wCostStore : StoreState :=
  (createProject emptyStore wBudgetProjectInput "p1" 0).2

/-- A concrete cost event of the given cost for project p1. -/
def wCostEvent (c : ℚ) : CostInput :=
  { organizationId := "org", projectId := "p1", agentId := "claude",
    model := "m", taskId := none, tokensInput := 1, tokensOutput := 1,
    cost := c }

/-- C3 witness: recording costs 10 and 20 for the project leaves both the
ledger aggregate and the stored budget_spent at 30. -/
theorem recordCost_additive_spec_witness :
    getProjectSpend (recordCosts wCostStore
      [(wCostEvent 10, "c1", 1), (wCostEvent 20, "c2", 2)]) "p1" = 30 ∧
    ((recordCosts wCostStore [(wCostEvent 10, "c1", 1), (wCostEvent 20, "c2", 2)]).projects.find?
      (fun p => decide (p.id = "p1"))).map (fun p => p.budgetSpent) = some 30 := by
  have h := recordCost_additive_spec wCostStore "p1"
    [(wCostEvent 10, "c1", 1), (wCostEvent 20, "c2", 2)]
    (createProject emptyStore wBudgetProjectInput "p1" 0).1
    (by decide) (by decide) (by decide) (by decide)
  have hsum : totalCost [(wCostEvent 10, "c1", 1), (wCostEvent 20, "c2", 2)] = 30 := by
    norm_num [totalCost, wCostEvent]
  refine ⟨by rw [h.1, hsum], ?_⟩
  rw [h.2, Option.map_some']
  exact congrArg some hsum

/-- C10: for a project whose stored budget_total is NULL or 0, getProject
keeps returning budget = undefined after any sequence of recordCost calls
for it (which still increment the stored budget_spent), and
getProjectSpend returns the sum of the recorded costs. -/
theorem getProject_no_budget_spec (s : StoreState) (projectId : String)
    (events : List (CostInput × String × Nat)) (p0 : ProjectRow)
    (hall : ∀ e ∈ events, e.1.projectId = projectId)
    (hf : s.projects.find? (fun p => decide (p.id = projectId)) = some p0)
    (hb : p0.budgetTotal = none ∨ p0.budgetTotal = some 0)
    (hnoev : ∀ e ∈ s.costEvents, e.projectId ≠ projectId) :
    (getProject (recordCosts s events) projectId).map (fun pr => pr.budget) =
      some none ∧
    getProjectSpend (recordCosts s events) projectId = totalCost events := by
  have h := recordCosts_spend_general projectId events s p0 hall hf
  constructor
  · simp only [getProject]
    rw [h.1, Option.map_some', Option.map_some']
    rcases hb with hb | hb
    · simp [rowToProject, hb]
    · simp [rowToProject, hb]
  · have hs0 : getProjectSpend s projectId = 0 := by
      simp only [getProjectSpend]
      rw [List.filter_eq_nil_iff.mpr (by
        intro e he
        simpa using hnoev e he)]
      rfl
    rw [h.2, hs0, zero_add]

/-- The store of the C10 witness: one project created without a budget. -/
def wNoBudgetStore : StoreState :=
  (createProject emptyStore cexProjectInput "p1" 0).2

/-- C10 witness: after recording cost 5 for the budget-less project,
getProject still reports no budget while getProjectSpend reports 5. -/
theorem getProject_no_budget_spec_witness :
    (getProject (recordCosts wNoBudgetStore [(wCostEvent 5, "c1", 1)]) "p1").map
      (fun pr => pr.budget) = some none ∧
    getProjectSpend (recordCosts wNoBudgetStore [(wCostEvent 5, "c1", 1)]) "p1" = 5 := by
  have h := getProject_no_budget_spec wNoBudgetStore "p1"
    [(wCostEvent 5, "c1", 1)]
    (createProject emptyStore cexProjectInput "p1" 0).1
    (by decide) (by decide) (Or.inl (by decide)) (by decide)
  refine ⟨h.1, ?_⟩
  rw [h.2]
  norm_num [totalCost, wCostEvent]

/-! ## C7: createAccessRequest idempotence while pending -/

/-- createAccessRequest returns an existing pending request for the pair
unchanged, touching nothing. -/
theorem createAccessRequest_existing (s : StoreState) (projectId : String)
    (input : AccessRequestInput) (id : String) (now : Nat)
    (r : AccessRequestRow)
    (h : s.accessRequests.find?
      (fun x => decide (pendingFor projectId input.agentId x)) = some r) :
    createAccessRequest s projectId input id now = (r, s) := by
  simp only [createAccessRequest, h]

/-- createAccessRequest appends a fresh pending row when no pending request
for the pair exists. -/
theorem createAccessRequest_new (s : StoreState) (projectId : String)
    (input : AccessRequestInput) (id : String) (now : Nat)
    (h : s.accessRequests.find?
      (fun x => decide (pendingFor projectId input.agentId x)) = none) :
    createAccessRequest s projectId input id now =
      (newRequestRow projectId input id now,
       { s with accessRequests :=
          s.accessRequests ++ [newRequestRow projectId input id now] }) := by
  simp only [createAccessRequest, h]

/-- C7: while a pending request for (projectId, agentId) exists, a second
createAccessRequest for the same pair returns the first request unchanged
and adds no row; and one createAccessRequest call keeps every
(projectId, agentId) pair at no more than one pending request. -/
theorem createAccessRequest_idem_spec (s : StoreState) (projectId : String)
    (i1 i2 : AccessRequestInput) (id1 id2 : String) (n1 n2 : Nat)
    (hag : i2.agentId = i1.agentId)
    (hnone : ∀ r ∈ s.accessRequests, ¬ pendingFor projectId i1.agentId r) :
    ((createAccessRequest (createAccessRequest s projectId i1 id1 n1).2
        projectId i2 id2 n2).1 = (createAccessRequest s projectId i1 id1 n1).1
    ∧ (createAccessRequest (createAccessRequest s projectId i1 id1 n1).2
        projectId i2 id2 n2).2 = (createAccessRequest s projectId i1 id1 n1).2)
    ∧ (∀ pid aid,
        s.accessRequests.countP (fun r => decide (pendingFor pid aid r)) ≤ 1 →
        (createAccessRequest s projectId i1 id1 n1).2.accessRequests.countP
          (fun r => decide (pendingFor pid aid r)) ≤ 1) := by
  have hF1 : s.accessRequests.find?
      (fun r => decide (pendingFor projectId i1.agentId r)) = none :=
    List.find?_eq_none.mpr (by
      intro r hr
      simpa using hnone r hr)
  have hnew := createAccessRequest_new s projectId i1 id1 n1 hF1
  constructor
  · rw [hnew]
    have hF2 : (s.accessRequests ++ [newRequestRow projectId i1 id1 n1]).find?
        (fun r => decide (pendingFor projectId i2.agentId r)) =
        some (newRequestRow projectId i1 id1 n1) := by
      rw [hag, List.find?_append, hF1, Option.none_or,
        List.find?_cons_of_pos]
      simp [newRequestRow, pendingFor]
    rw [createAccessRequest_existing _ projectId i2 id2 n2 _ hF2]
    exact ⟨rfl, rfl⟩
  · intro pid aid hle
    rw [hnew, List.countP_append]
    by_cases hkey : pid = projectId ∧ aid = i1.agentId
    · have hzero : s.accessRequests.countP
          (fun r => decide (pendingFor pid aid r)) = 0 :=
        List.countP_eq_zero.mpr (by
          intro r hr
          rw [hkey.1, hkey.2]
          simpa using hnone r hr)
      have hsing : (([newRequestRow projectId i1 id1 n1] :
          List AccessRequestRow)).countP
          (fun r => decide (pendingFor pid aid r)) ≤ 1 := by
        rcases hd : decide (pendingFor pid aid (newRequestRow projectId i1 id1 n1)) with _ | _
        · simp [List.countP_cons, hd]
        · simp [List.countP_cons, hd]
      rw [hzero]
      simpa using hsing
    · have hnot : ¬ pendingFor pid aid (newRequestRow projectId i1 id1 n1) := by
        intro hc
        exact hkey ⟨hc.1.symm, hc.2.1.symm⟩
      have hz : (([newRequestRow projectId i1 id1 n1] :
          List AccessRequestRow)).countP
          (fun r => decide (pendingFor pid aid r)) = 0 := by
        simp [List.countP_cons, hnot]
      rw [hz]
      simpa using hle

/-- The access request input of the C7 witness. -/
def wReqInput (name : String) : AccessRequestInput :=
  { agentId := "claude-1", agentName := name, agentType := "claude",
    capabilities := none, requestedRole := none }

/-- C7 witness: two createAccessRequest calls for the same agent before
review return the same request and the second call changes nothing. -/
theorem createAccessRequest_idem_spec_witness :
    (createAccessRequest (createAccessRequest emptyStore "p1" (wReqInput "Claude") "r1" 1).2
      "p1" (wReqInput "Claude Updated") "r2" 2).1 =
      (createAccessRequest emptyStore "p1" (wReqInput "Claude") "r1" 1).1 ∧
    (createAccessRequest (createAccessRequest emptyStore "p1" (wReqInput "Claude") "r1" 1).2
      "p1" (wReqInput "Claude Updated") "r2" 2).2 =
      (createAccessRequest emptyStore "p1" (wReqInput "Claude") "r1" 1).2 := by
  have h := createAccessRequest_idem_spec emptyStore "p1" (wReqInput "Claude")
    (wReqInput "Claude Updated") "r1" "r2" 1 2 rfl (by decide)
  exact h.1

/-! ## C8: listTasks filtering and ordering -/

/-- C8: listTasks returns exactly the rows of the project matching the
status, priority and assignedTo filters, ordered by priority rank
(critical, high, medium, low) and, within equal rank, by ascending
creation time. -/
theorem listTasks_spec (s : StoreState) (projectId : String) (f : TaskFilters) :
    (listTasks s projectId f).Perm
      (s.tasks.filter (matchesTaskFilters projectId f))
    ∧ List.Sorted taskOrder (listTasks s projectId f) := by
  constructor
  · exact List.perm_insertionSort taskOrder _
  · exact List.sorted_insertionSort taskOrder _

end Conductor
